import Mathlib

/-!
Verification of the AAP frame codec and message assembler of
`backend/android_auto/message.py`, the USB transport write path of
`backend/android_auto/usb_transport.py`, and the control-channel
orchestration steps of `backend/android_auto/manager.py`.

Bytes are modelled as `List Nat`; every byte produced by the code is < 256
by construction, and theorems about parsing untrusted input carry an
explicit all-bytes-below-256 hypothesis where it matters.  Python's
`x & 0x03`, `x & 0x04`, `x & 0x08` on naturals are rendered as `x % 4`,
`x / 4 % 2`, `x / 8 % 2`, which agree with the bit operations on all
naturals.
-/

namespace Octave

/-- Frame types (bits 0-1 of the flags byte), from `constants.py`. -/
inductive FrameType where
  | MIDDLE
  | FIRST
  | LAST
  | BULK
deriving DecidableEq, Repr

/-- Numeric value of a frame type (`constants.py`: MIDDLE=0, FIRST=1,
LAST=2, BULK=3). -/
def FrameType.toNat : FrameType → Nat
  | .MIDDLE => 0
  | .FIRST => 1
  | .LAST => 2
  | .BULK => 3

/-- `FrameType(n)` for `n` in 0..3 (Python raises outside that range; the
only call site passes `flags & 0x03`, which is always in range, so the
catch-all arm is never reached with a value other than 3 there). -/
def FrameType.fromNat : Nat → FrameType
  | 0 => .MIDDLE
  | 1 => .FIRST
  | 2 => .LAST
  | _ => .BULK

/-- Encryption flag (bit 3 of the flags byte). -/
inductive EncryptionType where
  | PLAIN
  | ENCRYPTED
deriving DecidableEq, Repr

/-- Message type (bit 2 of the flags byte). -/
inductive MessageType where
  | SPECIFIC
  | CONTROL
deriving DecidableEq, Repr

/-- Big-endian u16 encoding, `struct.pack` with format >H (as bytes;
callers always pass values < 65536, where the leading `% 256` is the
identity). -/
def encodeU16 (n : Nat) : List Nat :=
  [n / 256 % 256, n % 256]

/-- Big-endian u32 encoding, `struct.pack` with format >I. -/
def encodeU32 (n : Nat) : List Nat :=
  [n / 2 ^ 24 % 256, n / 2 ^ 16 % 256, n / 2 ^ 8 % 256, n % 256]

/-- Big-endian u16 decoding, `struct.unpack` with format >H. -/
def decodeU16 (hi lo : Nat) : Nat := hi * 256 + lo

/-- Big-endian u32 decoding, `struct.unpack` with format >I. -/
def decodeU32 (b0 b1 b2 b3 : Nat) : Nat :=
  b0 * 2 ^ 24 + b1 * 2 ^ 16 + b2 * 2 ^ 8 + b3

/-- AAP frame header (`message.py`, class FrameHeader). -/
structure FrameHeader where
  channel_id : Nat
  frame_type : FrameType
  encryption_type : EncryptionType
  message_type : MessageType
  frame_size : Nat
  total_size : Option Nat := none
deriving DecidableEq, Repr

namespace FrameHeader

/-- `FrameHeader.from_bytes`: parse a header, returning the header and the
number of bytes consumed, or `none` where Python raises ValueError
(fewer than 4 bytes).  The extended (8-byte) form is recognised only for
FIRST frames with at least 8 bytes available whose big-endian u32 at
offset 4 is >= the u16 frame size at offset 2. -/
def from_bytes (data : List Nat) : Option (FrameHeader × Nat) :=
  match data with
  | ch :: flags :: s1 :: s2 :: rest =>
    let frame_type := FrameType.fromNat (flags % 4)
    let message_type := if flags / 4 % 2 = 1 then MessageType.CONTROL else MessageType.SPECIFIC
    let encryption_type := if flags / 8 % 2 = 1 then EncryptionType.ENCRYPTED else EncryptionType.PLAIN
    let frame_size := decodeU16 s1 s2
    -- `total_size` is set (together with bytes_consumed = 8) only when the
    -- frame is FIRST, at least 8 bytes are available, and the peeked u32 is
    -- >= frame_size.
    let ext : Option Nat :=
      if frame_type = FrameType.FIRST then
        match rest with
        | t0 :: t1 :: t2 :: t3 :: _ =>
          let potential_total := decodeU32 t0 t1 t2 t3
          if frame_size ≤ potential_total then some potential_total else none
        | _ => none
      else none
    match ext with
    | some t => some (⟨ch, frame_type, encryption_type, message_type, frame_size, some t⟩, 8)
    | none => some (⟨ch, frame_type, encryption_type, message_type, frame_size, none⟩, 4)
  | _ => none

/-- The flags byte built by `to_bytes`: the three fields occupy disjoint
bits, so Python's bitwise-or is a sum. -/
def flagsByte (h : FrameHeader) : Nat :=
  h.frame_type.toNat
    + (if h.message_type = MessageType.CONTROL then 4 else 0)
    + (if h.encryption_type = EncryptionType.ENCRYPTED then 8 else 0)

/-- `FrameHeader.to_bytes`: serialize the header. -/
def to_bytes (h : FrameHeader) : List Nat :=
  [h.channel_id, h.flagsByte] ++ encodeU16 h.frame_size
    ++ (match h.total_size with
        | some t => encodeU32 t
        | none => [])

end FrameHeader

/-- AAP message (`message.py`, class Message). -/
structure Message where
  channel_id : Nat
  message_id : Nat
  payload : List Nat
  encrypted : Bool := false
deriving DecidableEq, Repr

namespace Message

/-- `Message.from_frames`: concatenate frame payloads; the first two bytes
are the big-endian message id, the rest the payload.  `none` where Python
raises ValueError (fewer than 2 bytes). -/
def from_frames (channel_id : Nat) (frames : List (List Nat)) (encrypted : Bool) :
    Option Message :=
  match frames.flatten with
  | b0 :: b1 :: rest => some ⟨channel_id, decodeU16 b0 b1, rest, encrypted⟩
  | _ => none

/-- One chunking step per loop iteration of `range(0, len(data), max)`;
`fuel` is an upper bound on the iteration count (callers pass the data
length, which suffices whenever `maxsz ≥ 1`, the only case the Python
`range` accepts with nonempty data). -/
def chunkRange (maxsz : Nat) : Nat → List Nat → List (List Nat)
  | 0, _ => []
  | _ + 1, [] => []
  | fuel + 1, a :: rest =>
    (a :: rest).take maxsz :: chunkRange maxsz fuel ((a :: rest).drop maxsz)

/-- `Message.to_frames`: 2-byte message id plus payload, split into chunks
of at most `max_frame_size` bytes. -/
def to_frames (m : Message) (max_frame_size : Nat) : List (List Nat) :=
  let data := encodeU16 m.message_id ++ m.payload
  if data.length ≤ max_frame_size then [data]
  else chunkRange max_frame_size data.length data

/-- Frame type for chunk `i` of `n` (`create_frame_data`: BULK when the
single chunk is both first and last, FIRST/LAST at the ends, MIDDLE
otherwise). -/
def frameTypeAt (i n : Nat) : FrameType :=
  if i = 0 ∧ i = n - 1 then .BULK
  else if i = 0 then .FIRST
  else if i = n - 1 then .LAST
  else .MIDDLE

/-- `Message.create_frame_data`: headers plus chunk payloads, concatenated.
Only the FIRST frame of a multi-frame split carries the extended header
with `total_size` = sum of all chunk lengths. -/
def create_frame_data (m : Message) (max_frame_size : Nat) : List Nat :=
  let frames := m.to_frames max_frame_size
  let total_size := (frames.map List.length).sum
  let n := frames.length
  (frames.enum.map (fun p =>
    let use_extended := 1 < n ∧ p.1 = 0
    let header : FrameHeader :=
      { channel_id := m.channel_id
        frame_type := frameTypeAt p.1 n
        encryption_type := if m.encrypted then .ENCRYPTED else .PLAIN
        message_type := .SPECIFIC
        frame_size := p.2.length
        total_size := if use_extended then some total_size else none }
    header.to_bytes ++ p.2)).flatten

end Message

/-- Outcome of one `_try_extract_message` call: `noMsg` models a `None`
return (the `feed` loop breaks on it), `oneMsg` a returned message,
`errShort` the ValueError from `Message.from_frames` escaping to `feed`. -/
inductive ExtractOut where
  | noMsg
  | oneMsg (m : Message)
  | errShort
deriving DecidableEq, Repr

/-- Python dict lookup `d.get(k)` / `k in d`, over an association list with
unique keys. -/
def dictGet (d : List (Nat × List (List Nat))) (k : Nat) : Option (List (List Nat)) :=
  match d with
  | [] => none
  | (k', v') :: rest => if k' = k then some v' else dictGet rest k

/-- Python dict assignment `d[k] = v` (replace the existing binding, or
append a new one). -/
def dictSet (d : List (Nat × List (List Nat))) (k : Nat) (v : List (List Nat)) :
    List (Nat × List (List Nat)) :=
  match d with
  | [] => [(k, v)]
  | (k', v') :: rest => if k' = k then (k, v) :: rest else (k', v') :: dictSet rest k v

/-- Python dict removal `d.pop(k)`. -/
def dictPop (d : List (Nat × List (List Nat))) (k : Nat) :
    List (Nat × List (List Nat)) :=
  match d with
  | [] => []
  | (k', v') :: rest => if k' = k then rest else (k', v') :: dictPop rest k

/-- State of a `MessageAssembler`: the byte buffer and the per-channel
pending frame lists (`_current_frames`). -/
structure MessageAssembler where
  buffer : List Nat
  current_frames : List (Nat × List (List Nat))
deriving DecidableEq, Repr

namespace MessageAssembler

/-- A fresh assembler (`MessageAssembler.__init__`). -/
def init : MessageAssembler := ⟨[], []⟩

/-- `MessageAssembler._try_extract_message`.  Returns the updated state and
what the Python call did: returned `None`, returned a message, or raised
ValueError out of `Message.from_frames` (note the buffer is advanced past
the frame, and on the LAST path the pending list popped, before that
ValueError is raised). -/
def tryExtractMessage (s : MessageAssembler) : MessageAssembler × ExtractOut :=
  if s.buffer.length < 4 then (s, .noMsg)
  else
    match FrameHeader.from_bytes s.buffer with
    | none => (s, .noMsg)
    | some (header, header_size) =>
      let total_frame_size := header_size + header.frame_size
      if s.buffer.length < total_frame_size then (s, .noMsg)
      else
        let payload := (s.buffer.drop header_size).take header.frame_size
        let s' : MessageAssembler := { s with buffer := s.buffer.drop total_frame_size }
        let channel_id := header.channel_id
        let enc := header.encryption_type = EncryptionType.ENCRYPTED
        match header.frame_type with
        | .BULK =>
          match Message.from_frames channel_id [payload] enc with
          | some m => (s', .oneMsg m)
          | none => (s', .errShort)
        | .FIRST =>
          ({ s' with current_frames := dictSet s'.current_frames channel_id [payload] }, .noMsg)
        | .MIDDLE =>
          match dictGet s'.current_frames channel_id with
          | some fs =>
            ({ s' with current_frames := dictSet s'.current_frames channel_id (fs ++ [payload]) },
             .noMsg)
          | none => (s', .noMsg)
        | .LAST =>
          match dictGet s'.current_frames channel_id with
          | some fs =>
            let s'' : MessageAssembler :=
              { s' with current_frames := dictPop s'.current_frames channel_id }
            match Message.from_frames channel_id (fs ++ [payload]) enc with
            | some m => (s'', .oneMsg m)
            | none => (s'', .errShort)
          | none => (s', .noMsg)

/-- The `while True` loop body of `MessageAssembler.feed`: append a
returned message and continue; break on a `None` return; on ValueError
drop one leading byte and retry, breaking if the buffer is then empty.
`fuel` bounds the iteration count; `feed` passes the buffer length plus
one, which `feedLoop_fuel_stable` shows is always enough. -/
def feedLoop : Nat → MessageAssembler → List Message → MessageAssembler × List Message
  | 0, s, acc => (s, acc)
  | fuel + 1, s, acc =>
    match tryExtractMessage s with
    | (s', .oneMsg m) => feedLoop fuel s' (acc ++ [m])
    | (s', .noMsg) => (s', acc)
    | (s', .errShort) =>
      let s'' : MessageAssembler := { s' with buffer := s'.buffer.drop 1 }
      if s''.buffer.isEmpty then (s'', acc) else feedLoop fuel s'' acc

/-- `MessageAssembler.feed`: append the incoming bytes to the buffer, then
run the extraction loop. -/
def feed (s : MessageAssembler) (data : List Nat) : MessageAssembler × List Message :=
  let s0 : MessageAssembler := { s with buffer := s.buffer ++ data }
  feedLoop (s0.buffer.length + 1) s0 []

end MessageAssembler

/-! ### Connection orchestrator (`manager.py`)

The orchestrator pieces the claims touch: the state enum, `_set_state`,
`_on_ssl_handshake_complete` / `_send_auth_complete` /
`_send_service_discovery_request`, the `_handle_control_message`
dispatch and `_handle_ping_request`.  Sending a message and setting the
state are recorded as events; the `print`/log/`connectionProgress` UI
emissions, which no claim mentions, are omitted.  The serialized
`ServiceDiscoveryRequest` protobuf (empty when the generated module is
unavailable) is a parameter `sdPayload`. -/

/-- `AndroidAutoState` from `manager.py`. -/
inductive AndroidAutoState where
  | DISCONNECTED
  | CONNECTING
  | SSL_HANDSHAKE
  | SERVICE_DISCOVERY
  | CONNECTED
  | STREAMING
  | ERROR
deriving DecidableEq, Repr

/-- Control message ids from `constants.py` (ControlMessageType). -/
def ControlMessageType.VERSION_RESPONSE : Nat := 2
def ControlMessageType.SSL_HANDSHAKE : Nat := 3
def ControlMessageType.AUTH_COMPLETE : Nat := 4
def ControlMessageType.SERVICE_DISCOVERY_REQUEST : Nat := 5
def ControlMessageType.SERVICE_DISCOVERY_RESPONSE : Nat := 6
def ControlMessageType.CHANNEL_OPEN_RESPONSE : Nat := 8
def ControlMessageType.PING_REQUEST : Nat := 10
def ControlMessageType.PING_RESPONSE : Nat := 11
def ControlMessageType.NAV_FOCUS_NOTIFICATION : Nat := 13
def ControlMessageType.AUDIO_FOCUS_REQUEST : Nat := 17

/-- `ChannelId.CONTROL` from `constants.py`. -/
def ChannelId.CONTROL : Nat := 0

/-- The orchestrator state the claims consult: the state-machine value and
the `_ssl_established` flag. -/
structure ManagerState where
  state : AndroidAutoState
  ssl_established : Bool
deriving DecidableEq, Repr

/-- Observable orchestrator actions: `_send_message(m)` and a state
change applied by `_set_state`. -/
inductive MgrEvent where
  | sent (m : Message)
  | stateSet (st : AndroidAutoState)
deriving DecidableEq, Repr

/-- `_set_state`: update and signal only when the state actually changes. -/
def setState (s : ManagerState) (st : AndroidAutoState) :
    ManagerState × List MgrEvent :=
  if s.state ≠ st then ({ s with state := st }, [.stateSet st]) else (s, [])

/-- `_send_service_discovery_request`: a `SERVICE_DISCOVERY_REQUEST`
control message whose encrypted flag is the current `_ssl_established`. -/
def send_service_discovery_request (s : ManagerState) (sdPayload : List Nat) :
    List MgrEvent :=
  [.sent ⟨ChannelId.CONTROL, ControlMessageType.SERVICE_DISCOVERY_REQUEST,
          sdPayload, s.ssl_established⟩]

/-- `_send_auth_complete`: send the unencrypted empty `AUTH_COMPLETE`,
move to `SERVICE_DISCOVERY`, then send the service discovery request. -/
def send_auth_complete (s : ManagerState) (sdPayload : List Nat) :
    ManagerState × List MgrEvent :=
  let e1 := [MgrEvent.sent ⟨ChannelId.CONTROL, ControlMessageType.AUTH_COMPLETE, [], false⟩]
  let p := setState s AndroidAutoState.SERVICE_DISCOVERY
  (p.1, e1 ++ p.2 ++ send_service_discovery_request p.1 sdPayload)

/-- `_on_ssl_handshake_complete`: set `_ssl_established`, then run
`_send_auth_complete`. -/
def on_ssl_handshake_complete (s : ManagerState) (sdPayload : List Nat) :
    ManagerState × List MgrEvent :=
  send_auth_complete { s with ssl_established := true } sdPayload

/-- The handler `_handle_control_message` selects for a message id (its
`if`/`elif` chain consults only the id, never the orchestrator state). -/
inductive ControlHandler where
  | versionResponse
  | sslData
  | serviceDiscoveryResponse
  | channelOpenResponse
  | pingRequest
  | navFocusNotification
  | audioFocusRequest
  | noHandler
deriving DecidableEq, Repr

/-- The dispatch chain of `_handle_control_message`. -/
def handle_control_message (message_id : Nat) : ControlHandler :=
  if message_id = ControlMessageType.VERSION_RESPONSE then .versionResponse
  else if message_id = ControlMessageType.SSL_HANDSHAKE then .sslData
  else if message_id = ControlMessageType.SERVICE_DISCOVERY_RESPONSE then .serviceDiscoveryResponse
  else if message_id = ControlMessageType.CHANNEL_OPEN_RESPONSE then .channelOpenResponse
  else if message_id = ControlMessageType.PING_REQUEST then .pingRequest
  else if message_id = ControlMessageType.NAV_FOCUS_NOTIFICATION then .navFocusNotification
  else if message_id = ControlMessageType.AUDIO_FOCUS_REQUEST then .audioFocusRequest
  else .noHandler

/-- `_handle_ping_request`: answer with a `PING_RESPONSE` echoing the
request payload (and its encryption flag). -/
def handle_ping_request (msg : Message) : List MgrEvent :=
  [.sent ⟨ChannelId.CONTROL, ControlMessageType.PING_RESPONSE, msg.payload, msg.encrypted⟩]

/-! ### USB transport write path (`usb_transport.py`)

`USBTransport.write` and `_handle_stale_device`.  One USB transfer
attempt either reports a byte count, times out, or fails with another
USB error; the schedule of outcomes is a parameter `att` (attempt index
to outcome).  `clear_halt`, the user-facing error emission, the bus
reset and the forced disconnect are recorded as events; `time.sleep`
and logging are omitted.  `connected` stands for `is_connected` (a
device present in `CONNECTED` state, which also implies the device
handle the stale handler resets is present). -/

/-- Outcome of one `out_endpoint.write` transfer attempt. -/
inductive WriteAttempt where
  | ok (n : Nat)
  | timeout
  | usbError
deriving DecidableEq, Repr

/-- Observable USB side effects of the write/stale-recovery path. -/
inductive USBEvent where
  | clearHalt
  | errorEmit
  | usbReset
  | disconnect
deriving DecidableEq, Repr

/-- `_aoap_fail_count` plus connectivity, the state `write` and
`_handle_stale_device` touch. -/
structure USBTransportState where
  connected : Bool
  aoap_fail_count : Nat
deriving DecidableEq, Repr

/-- `self._max_aoap_fails`. -/
def max_aoap_fails : Nat := 3

/-- `_handle_stale_device`: bump the failure counter, emit the
user-actionable error once the threshold is reached, reset the USB device
(when a device is held) and force a disconnect. -/
def handle_stale_device (s : USBTransportState) : USBTransportState × List USBEvent :=
  let s' : USBTransportState := { s with aoap_fail_count := s.aoap_fail_count + 1 }
  (s', (if max_aoap_fails ≤ s'.aoap_fail_count then [USBEvent.errorEmit] else [])
    ++ (if s.connected then [USBEvent.usbReset] else [])
    ++ [USBEvent.disconnect])

/-- The `for attempt in range(retries)` loop of `write`; `remaining` is
`retries - attempt`, so `0 < remaining - 1` mirrors
`attempt < retries - 1`. Exhausting the loop returns `False`
(unreachable once `retries ≥ 1`, since the last timeout returns). -/
def writeGo (att : Nat → WriteAttempt) (dataLen : Nat) (s : USBTransportState) :
    Nat → Nat → Bool × USBTransportState × List USBEvent
  | 0, _ => (false, s, [])
  | remaining + 1, attempt =>
    match att attempt with
    | .ok n => (decide (n = dataLen), s, [])
    | .timeout =>
      if 0 < remaining then
        let r := writeGo att dataLen s remaining (attempt + 1)
        (r.1, r.2.1, USBEvent.clearHalt :: r.2.2)
      else
        let p := handle_stale_device s
        (false, p.1, p.2)
    | .usbError => (false, s, [])

/-- `USBTransport.write(data, retries)`: fail immediately when not
connected, otherwise run the retry loop from attempt 0. -/
def write (s : USBTransportState) (att : Nat → WriteAttempt) (dataLen retries : Nat) :
    Bool × USBTransportState × List USBEvent :=
  if s.connected then writeGo att dataLen s retries 0 else (false, s, [])

end Octave

namespace Octave

/-! ## Codec lemmas -/

lemma FrameType.fromNat_toNat (ft : FrameType) : FrameType.fromNat ft.toNat = ft := by
  cases ft <;> rfl

lemma FrameHeader.flagsByte_mod4 (h : FrameHeader) :
    h.flagsByte % 4 = h.frame_type.toNat := by
  cases hft : h.frame_type <;> cases hmt : h.message_type <;> cases het : h.encryption_type <;>
    simp [FrameHeader.flagsByte, FrameType.toNat, hft, hmt, het]

lemma FrameHeader.flagsByte_msgType (h : FrameHeader) :
    (if h.flagsByte / 4 % 2 = 1 then MessageType.CONTROL else MessageType.SPECIFIC) =
      h.message_type := by
  cases hft : h.frame_type <;> cases hmt : h.message_type <;> cases het : h.encryption_type <;>
    simp [FrameHeader.flagsByte, FrameType.toNat, hft, hmt, het]

lemma FrameHeader.flagsByte_encType (h : FrameHeader) :
    (if h.flagsByte / 8 % 2 = 1 then EncryptionType.ENCRYPTED else EncryptionType.PLAIN) =
      h.encryption_type := by
  cases hft : h.frame_type <;> cases hmt : h.message_type <;> cases het : h.encryption_type <;>
    simp [FrameHeader.flagsByte, FrameType.toNat, hft, hmt, het]

lemma decodeU16_encodeU16 (n : Nat) (hn : n < 65536) :
    decodeU16 (n / 256 % 256) (n % 256) = n := by
  unfold decodeU16; omega

lemma decodeU32_encodeU32 (n : Nat) (hn : n < 4294967296) :
    decodeU32 (n / 2 ^ 24 % 256) (n / 2 ^ 16 % 256) (n / 2 ^ 8 % 256) (n % 256) = n := by
  unfold decodeU32; norm_num; omega

/-- Length of a serialized short-form header. -/
lemma FrameHeader.to_bytes_length_short (h : FrameHeader) (hts : h.total_size = none) :
    h.to_bytes.length = 4 := by
  simp [FrameHeader.to_bytes, encodeU16, hts]

/-- Length of a serialized extended-form header. -/
lemma FrameHeader.to_bytes_length_ext (h : FrameHeader) (t : Nat)
    (hts : h.total_size = some t) :
    h.to_bytes.length = 8 := by
  simp [FrameHeader.to_bytes, encodeU16, encodeU32, hts]

/-- Parsing a serialized short-form non-FIRST header recovers the header
and consumes 4 bytes, whatever bytes follow. -/
lemma FrameHeader.from_bytes_short (h : FrameHeader) (tail : List Nat)
    (hts : h.total_size = none) (hfs : h.frame_size < 65536)
    (hft : h.frame_type ≠ FrameType.FIRST) :
    FrameHeader.from_bytes (h.to_bytes ++ tail) = some (h, 4) := by
  obtain ⟨ch, ft, et, mt, fs, ts⟩ := h
  simp only at hts hfs hft
  subst hts
  simp only [FrameHeader.to_bytes, encodeU16, List.cons_append, List.nil_append,
    List.append_nil]
  simp only [FrameHeader.from_bytes]
  rw [FrameHeader.flagsByte_mod4]
  simp only [FrameType.fromNat_toNat]
  rw [FrameHeader.flagsByte_msgType, FrameHeader.flagsByte_encType]
  simp only [if_neg hft]
  rw [decodeU16_encodeU16 fs hfs]

/-- Parsing a serialized extended-form FIRST header whose total size is at
least its frame size recovers the header and consumes 8 bytes, whatever
bytes follow. -/
lemma FrameHeader.from_bytes_ext (h : FrameHeader) (tail : List Nat) (t : Nat)
    (hts : h.total_size = some t) (hft : h.frame_type = FrameType.FIRST)
    (hfs : h.frame_size < 65536) (ht : t < 4294967296) (hle : h.frame_size ≤ t) :
    FrameHeader.from_bytes (h.to_bytes ++ tail) = some (h, 8) := by
  obtain ⟨ch, ft, et, mt, fs, ts⟩ := h
  simp only at hts hft hfs hle
  subst hts; subst hft
  simp only [FrameHeader.to_bytes, encodeU16, encodeU32, List.cons_append, List.nil_append,
    List.append_nil]
  simp only [FrameHeader.from_bytes]
  rw [FrameHeader.flagsByte_mod4]
  simp only [FrameType.fromNat_toNat, if_pos rfl]
  rw [FrameHeader.flagsByte_msgType, FrameHeader.flagsByte_encType]
  rw [decodeU16_encodeU16 fs hfs, decodeU32_encodeU32 t ht]
  simp [hle]

end Octave

namespace Octave

/-! ## Assembler lemmas -/

/-- A successful header parse needs at least 4 bytes. -/
lemma FrameHeader.from_bytes_some_length (data : List Nat) (x : FrameHeader × Nat)
    (h : FrameHeader.from_bytes data = some x) : 4 ≤ data.length := by
  rcases data with _ | ⟨a, _ | ⟨b, _ | ⟨c, _ | ⟨d, rest⟩⟩⟩⟩ <;>
    simp_all [FrameHeader.from_bytes]

/-- A header parse consumes 4 or 8 bytes. -/
lemma FrameHeader.from_bytes_consumed (data : List Nat) (hdr : FrameHeader) (n : Nat)
    (h : FrameHeader.from_bytes data = some (hdr, n)) : n = 4 ∨ n = 8 := by
  rcases data with _ | ⟨a, _ | ⟨b, _ | ⟨c, _ | ⟨d, rest⟩⟩⟩⟩ <;>
    simp only [FrameHeader.from_bytes] at h <;> try exact absurd h (by simp)
  split at h
  · split at h
    · split at h <;> simp_all
    · simp_all
  · simp_all

namespace MessageAssembler

/-- One `_try_extract_message` step when the buffer holds a complete frame:
header bytes `hb` that parse to `hdr` consuming `hb.length`, a frame
payload `fp` of the declared size, and trailing bytes `rest`.  The frame is
consumed from the buffer and handled according to its type. -/
lemma tryExtractMessage_frame (s : MessageAssembler) (hdr : FrameHeader)
    (hb fp rest : List Nat)
    (hbuf : s.buffer = hb ++ (fp ++ rest))
    (hparse : FrameHeader.from_bytes s.buffer = some (hdr, hb.length))
    (hfs : hdr.frame_size = fp.length) :
    tryExtractMessage s =
      (match hdr.frame_type with
       | .BULK =>
         match Message.from_frames hdr.channel_id [fp]
             (hdr.encryption_type = EncryptionType.ENCRYPTED) with
         | some m => (⟨rest, s.current_frames⟩, .oneMsg m)
         | none => (⟨rest, s.current_frames⟩, .errShort)
       | .FIRST =>
         (⟨rest, dictSet s.current_frames hdr.channel_id [fp]⟩, .noMsg)
       | .MIDDLE =>
         match dictGet s.current_frames hdr.channel_id with
         | some fl =>
           (⟨rest, dictSet s.current_frames hdr.channel_id (fl ++ [fp])⟩, .noMsg)
         | none => (⟨rest, s.current_frames⟩, .noMsg)
       | .LAST =>
         match dictGet s.current_frames hdr.channel_id with
         | some fl =>
           match Message.from_frames hdr.channel_id (fl ++ [fp])
               (hdr.encryption_type = EncryptionType.ENCRYPTED) with
           | some m =>
             (⟨rest, dictPop s.current_frames hdr.channel_id⟩, .oneMsg m)
           | none =>
             (⟨rest, dictPop s.current_frames hdr.channel_id⟩, .errShort)
         | none => (⟨rest, s.current_frames⟩, .noMsg)) := by
  obtain ⟨buf, cur⟩ := s
  simp only at hbuf
  subst hbuf
  have hlen4 : 4 ≤ (hb ++ (fp ++ rest)).length :=
    FrameHeader.from_bytes_some_length _ _ hparse
  simp only [tryExtractMessage]
  rw [if_neg (by omega)]
  rw [hparse]
  dsimp only
  have hguard : ¬ (hb ++ (fp ++ rest)).length < hb.length + hdr.frame_size := by
    simp [List.length_append, hfs]
  rw [if_neg hguard]
  have hdrophb : (hb ++ (fp ++ rest)).drop hb.length = fp ++ rest :=
    List.drop_left _ _
  have hpayload : ((hb ++ (fp ++ rest)).drop hb.length).take hdr.frame_size = fp := by
    rw [hdrophb, hfs]
    exact List.take_left _ _
  have hdroptot : (hb ++ (fp ++ rest)).drop (hb.length + hdr.frame_size) = rest := by
    rw [hfs, ← List.append_assoc]
    exact List.drop_left' (by simp)
  rw [hpayload, hdroptot]

end MessageAssembler

end Octave

namespace Octave

namespace MessageAssembler

/-- One-step unfolding of the `feed` loop body. -/
lemma feedLoop_succ (k : Nat) (s : MessageAssembler) (acc : List Message) :
    feedLoop (k + 1) s acc =
      (match tryExtractMessage s with
       | (s', .oneMsg m) => feedLoop k s' (acc ++ [m])
       | (s', .noMsg) => (s', acc)
       | (s', .errShort) =>
         if (s'.buffer.drop 1).isEmpty = true then (⟨s'.buffer.drop 1, s'.current_frames⟩, acc)
         else feedLoop k ⟨s'.buffer.drop 1, s'.current_frames⟩ acc) := rfl

/-- Every extraction step leaves the buffer no longer than before, and a
step that returns a message or raises consumes at least the 4 header
bytes. -/
lemma tryExtractMessage_buffer_le (s s' : MessageAssembler) (out : ExtractOut)
    (h : tryExtractMessage s = (s', out)) :
    s'.buffer.length ≤ s.buffer.length ∧
      (out ≠ ExtractOut.noMsg → s'.buffer.length + 4 ≤ s.buffer.length) := by
  unfold tryExtractMessage at h
  by_cases h4 : s.buffer.length < 4
  · rw [if_pos h4] at h
    cases h; exact ⟨le_refl _, fun hne => absurd rfl hne⟩
  rw [if_neg h4] at h
  rcases hFB : FrameHeader.from_bytes s.buffer with _ | ⟨hdr, hs⟩ <;> rw [hFB] at h
  · cases h; exact ⟨le_refl _, fun hne => absurd rfl hne⟩
  dsimp only at h
  by_cases hg : s.buffer.length < hs + hdr.frame_size
  · rw [if_pos hg] at h
    cases h; exact ⟨le_refl _, fun hne => absurd rfl hne⟩
  rw [if_neg hg] at h
  have hcons := FrameHeader.from_bytes_consumed _ _ _ hFB
  repeat' split at h
  all_goals cases h
  all_goals refine ⟨?_, fun hne => ?_⟩
  all_goals
    first
      | exact absurd rfl hne
      | (simp only [List.length_drop]; omega)

/-- `feedLoop` is insensitive to the fuel bound once it exceeds the buffer
length: the loop always breaks or empties the buffer before running out. -/
lemma feedLoop_fuel_congr (f1 : Nat) :
    ∀ (f2 : Nat) (s : MessageAssembler) (acc : List Message),
      s.buffer.length < f1 → s.buffer.length < f2 →
      feedLoop f1 s acc = feedLoop f2 s acc := by
  induction f1 with
  | zero => intro f2 s acc h1 h2; omega
  | succ k ih =>
    intro f2 s acc h1 h2
    obtain ⟨j, rfl⟩ : ∃ j, f2 = j + 1 := ⟨f2 - 1, by omega⟩
    rw [feedLoop_succ, feedLoop_succ]
    rcases hE : tryExtractMessage s with ⟨s', out⟩
    have hle := tryExtractMessage_buffer_le s s' out hE
    cases out with
    | noMsg => rfl
    | oneMsg m =>
      have hlt := hle.2 (by simp)
      exact ih j s' (acc ++ [m]) (by omega) (by omega)
    | errShort =>
      have hlt := hle.2 (by simp)
      dsimp only
      split
      · rfl
      · exact ih j _ acc (by simp only [List.length_drop]; omega)
          (by simp only [List.length_drop]; omega)

/-- One loop iteration that extracts nothing breaks out of `feed`. -/
lemma feedLoop_break (fuel : Nat) (s s1 : MessageAssembler) (acc : List Message)
    (h0 : 0 < fuel) (h : tryExtractMessage s = (s1, .noMsg)) :
    feedLoop fuel s acc = (s1, acc) := by
  obtain ⟨k, rfl⟩ : ∃ k, fuel = k + 1 := ⟨fuel - 1, by omega⟩
  rw [feedLoop_succ, h]

/-- Extraction on a buffer shorter than a header is a no-op `None`. -/
lemma tryExtractMessage_short (s : MessageAssembler) (h : s.buffer.length < 4) :
    tryExtractMessage s = (s, .noMsg) := by
  unfold tryExtractMessage
  rw [if_pos h]

/-- One loop iteration that extracts a message and empties the buffer:
the message is appended and the next iteration breaks. -/
lemma feedLoop_emit_end (fuel : Nat) (s s1 : MessageAssembler) (m : Message)
    (acc : List Message) (h2 : 2 ≤ fuel)
    (h : tryExtractMessage s = (s1, .oneMsg m)) (hend : s1.buffer = []) :
    feedLoop fuel s acc = (s1, acc ++ [m]) := by
  obtain ⟨k, rfl⟩ : ∃ k, fuel = k + 2 := ⟨fuel - 2, by omega⟩
  rw [feedLoop_succ, h]
  dsimp only
  exact feedLoop_break _ _ _ _ (by omega) (tryExtractMessage_short _ (by simp [hend]))

end MessageAssembler

end Octave

namespace Octave

/-! ## Orchestrator and transport theorems -/

/-- C6: when the TLS handshake adapter reports completion, the
orchestrator sends exactly one `AUTH_COMPLETE` control message with
`encrypted = false`, then transitions to `SERVICE_DISCOVERY`, and then
sends exactly one `SERVICE_DISCOVERY_REQUEST` control message whose
encrypted flag is `true` — the `_ssl_established` flag having been set
before that request is built, whatever it was before. -/
theorem ssl_handshake_complete_sequence (s : ManagerState) (sdPayload : List Nat)
    (h : s.state ≠ AndroidAutoState.SERVICE_DISCOVERY) :
    on_ssl_handshake_complete s sdPayload =
      (⟨AndroidAutoState.SERVICE_DISCOVERY, true⟩,
       [.sent ⟨ChannelId.CONTROL, ControlMessageType.AUTH_COMPLETE, [], false⟩,
        .stateSet AndroidAutoState.SERVICE_DISCOVERY,
        .sent ⟨ChannelId.CONTROL, ControlMessageType.SERVICE_DISCOVERY_REQUEST, sdPayload, true⟩]) := by
  simp [on_ssl_handshake_complete, send_auth_complete, setState,
    send_service_discovery_request, h]

/-- Witness for C6 at a concrete pre-state (in the SSL handshake phase,
TLS flag still down). -/
theorem ssl_handshake_complete_sequence_witness :
    on_ssl_handshake_complete ⟨AndroidAutoState.SSL_HANDSHAKE, false⟩ [7, 7] =
      (⟨AndroidAutoState.SERVICE_DISCOVERY, true⟩,
       [.sent ⟨ChannelId.CONTROL, ControlMessageType.AUTH_COMPLETE, [], false⟩,
        .stateSet AndroidAutoState.SERVICE_DISCOVERY,
        .sent ⟨ChannelId.CONTROL, ControlMessageType.SERVICE_DISCOVERY_REQUEST, [7, 7], true⟩]) :=
  ssl_handshake_complete_sequence ⟨AndroidAutoState.SSL_HANDSHAKE, false⟩ [7, 7] (by decide)

/-- C7: a `PING_REQUEST` on the control channel is dispatched to the ping
handler by the id-only `elif` chain — the orchestrator state `s` plays no
role — and the handler sends exactly one `PING_RESPONSE` whose payload is
the request payload. -/
theorem ping_request_echoed (s : ManagerState) (p : List Nat) (enc : Bool) :
    handle_control_message ControlMessageType.PING_REQUEST = .pingRequest ∧
    handle_ping_request ⟨ChannelId.CONTROL, ControlMessageType.PING_REQUEST, p, enc⟩ =
      [.sent ⟨ChannelId.CONTROL, ControlMessageType.PING_RESPONSE, p, enc⟩] := by
  exact ⟨by decide, rfl⟩

/-- C8: `write` with `retries = 3` while connected: with every transfer
timing out it clears the endpoint halt after each timeout but the last,
then runs stale-device recovery (failure counter bumped, bus reset,
forced disconnect, plus the user-facing error at the threshold) and
returns `false`; a first transfer reporting `n` bytes returns `true`
exactly when `n` is the full data length, with no recovery actions. -/
theorem write_timeout_retry (s : USBTransportState) (att : Nat → WriteAttempt)
    (dataLen : Nat) (hconn : s.connected = true) :
    ((∀ i, att i = .timeout) →
      write s att dataLen 3 =
        (false, ⟨true, s.aoap_fail_count + 1⟩,
         [USBEvent.clearHalt, USBEvent.clearHalt]
           ++ (if max_aoap_fails ≤ s.aoap_fail_count + 1 then [USBEvent.errorEmit] else [])
           ++ [USBEvent.usbReset, USBEvent.disconnect])) ∧
    (∀ n, att 0 = .ok n →
      write s att dataLen 3 = (decide (n = dataLen), s, [])) := by
  obtain ⟨c, k⟩ := s
  cases hconn
  constructor
  · intro hto
    simp [write, writeGo, hto 0, hto 1, hto 2, handle_stale_device]
  · intro n hn
    simp [write, writeGo, hn]

/-- Witness for C8: a connected transport with a clean failure counter,
all attempts timing out: two halt-clears, then reset + disconnect (below
the error threshold), returning `false`; and a full-length first transfer
returning `true`. -/
theorem write_timeout_retry_witness :
    write ⟨true, 0⟩ (fun _ => .timeout) 6 3 =
      (false, ⟨true, 1⟩,
       [USBEvent.clearHalt, USBEvent.clearHalt, USBEvent.usbReset, USBEvent.disconnect]) ∧
    write ⟨true, 0⟩ (fun _ => .ok 6) 6 3 = (true, ⟨true, 0⟩, []) := by
  constructor
  · have h := (write_timeout_retry ⟨true, 0⟩ (fun _ => .timeout) 6 rfl).1 (fun _ => rfl)
    simpa using h
  · have h := (write_timeout_retry ⟨true, 0⟩ (fun _ => .ok 6) 6 rfl).2 6 rfl
    simpa using h

end Octave

namespace Octave

/-! ## Chunking lemmas -/

lemma Message.chunkRange_nil (maxsz fuel : Nat) :
    Message.chunkRange maxsz fuel [] = [] := by
  cases fuel <;> rfl

lemma Message.chunkRange_cons (maxsz fuel : Nat) (d : List Nat) (hd : d ≠ []) :
    Message.chunkRange maxsz (fuel + 1) d =
      d.take maxsz :: Message.chunkRange maxsz fuel (d.drop maxsz) := by
  cases d
  · exact absurd rfl hd
  · rfl

/-! ## Assembler claim theorems -/

/-- C2 (amended): the `feed` loop is bounded by the buffer length (fuel
beyond `length + 1` never changes the result, so it cannot loop forever
and in particular not on an empty buffer), and when an extraction step
raises, exactly one leading byte of the post-extraction buffer is dropped
before retrying (breaking if the buffer is then empty).  However a leading
`0xff` byte before a valid BULK frame is *not* a parse error: the bytes
parse as a plausible header (channel 255, frame size 768) whose declared
size exceeds the available data, so `feed` returns no messages and retains
the entire buffer. -/
theorem feed_error_resync :
    (∀ (fuel : Nat) (s : MessageAssembler) (acc : List Message),
      s.buffer.length < fuel →
      MessageAssembler.feedLoop fuel s acc =
        MessageAssembler.feedLoop (s.buffer.length + 1) s acc) ∧
    (∀ (fuel : Nat) (s s' : MessageAssembler) (acc : List Message),
      MessageAssembler.tryExtractMessage s = (s', .errShort) →
      MessageAssembler.feedLoop (fuel + 1) s acc =
        (if (s'.buffer.drop 1).isEmpty = true
         then ((⟨s'.buffer.drop 1, s'.current_frames⟩ : MessageAssembler), acc)
         else MessageAssembler.feedLoop fuel ⟨s'.buffer.drop 1, s'.current_frames⟩ acc)) ∧
    MessageAssembler.feed .init (255 :: [1, 3, 0, 2, 0, 5]) =
      (⟨255 :: [1, 3, 0, 2, 0, 5], []⟩, []) := by
  refine ⟨?_, ?_, by decide⟩
  · intro fuel s acc h
    exact MessageAssembler.feedLoop_fuel_congr fuel (s.buffer.length + 1) s acc h (by omega)
  · intro fuel s s' acc h
    rw [MessageAssembler.feedLoop_succ, h]

/-- C2 counterexample: feeding `0xff` followed by the valid BULK frame
encoding the message (channel 1, id 5, empty payload) does not yield that
message (it yields nothing at all). -/
theorem feed_resync_counterexample :
    (MessageAssembler.feed .init (255 :: [1, 3, 0, 2, 0, 5])).2 ≠
      [{ channel_id := 1, message_id := 5, payload := [], encrypted := false }] := by
  decide

/-- C2 witness: the loop-bound part at fuel 50 on the 7-byte garbage
buffer, and the drop-one-byte error step on a zero-size BULK frame
followed by two bytes. -/
theorem feed_error_resync_witness :
    MessageAssembler.feedLoop 50 ⟨[255, 1, 3, 0, 2, 0, 5], []⟩ [] =
      MessageAssembler.feedLoop 8 ⟨[255, 1, 3, 0, 2, 0, 5], []⟩ [] ∧
    MessageAssembler.feedLoop 6 ⟨[3, 3, 0, 0, 9, 9], []⟩ [] =
      MessageAssembler.feedLoop 5 ⟨[9], []⟩ [] := by
  constructor
  · exact feed_error_resync.1 50 ⟨[255, 1, 3, 0, 2, 0, 5], []⟩ [] (by decide)
  · have h := feed_error_resync.2.1 5 ⟨[3, 3, 0, 0, 9, 9], []⟩ ⟨[9, 9], []⟩ [] (by decide)
    simpa using h

/-- C9: a LAST frame on a channel with no in-flight multi-frame message is
consumed from the buffer, yields no message, and the pending-frame state
of every channel is left exactly as it was. -/
theorem orphan_last_frame_dropped (s : MessageAssembler) (hdr : FrameHeader)
    (fp rest : List Nat)
    (hft : hdr.frame_type = .LAST) (hts : hdr.total_size = none)
    (hfs : hdr.frame_size = fp.length) (hfs16 : fp.length < 65536)
    (hpend : dictGet s.current_frames hdr.channel_id = none)
    (hbuf : s.buffer = hdr.to_bytes ++ (fp ++ rest)) :
    MessageAssembler.tryExtractMessage s = (⟨rest, s.current_frames⟩, .noMsg) := by
  have hlen : hdr.to_bytes.length = 4 := hdr.to_bytes_length_short hts
  have hp2 : FrameHeader.from_bytes s.buffer = some (hdr, hdr.to_bytes.length) := by
    rw [hbuf, hlen]
    exact FrameHeader.from_bytes_short hdr _ hts (by rw [hfs]; exact hfs16)
      (by rw [hft]; decide)
  rw [MessageAssembler.tryExtractMessage_frame s hdr hdr.to_bytes fp rest hbuf hp2 hfs, hft,
    hpend]

/-- C9 witness: an orphan LAST frame on channel 5 while channel 2 has an
in-flight message; channel 2 state survives untouched. -/
theorem orphan_last_frame_dropped_witness :
    MessageAssembler.tryExtractMessage ⟨[5, 2, 0, 1, 9, 8, 8], [(2, [[7]])]⟩ =
      (⟨[8, 8], [(2, [[7]])]⟩, .noMsg) := by
  have h := orphan_last_frame_dropped ⟨[5, 2, 0, 1, 9, 8, 8], [(2, [[7]])]⟩
    ⟨5, .LAST, .PLAIN, .SPECIFIC, 1, none⟩ [9] [8, 8]
    rfl rfl (by decide) (by decide) (by decide) (by decide)
  simpa using h

/-- C10: a BULK frame whose body is shorter than 2 bytes raises out of
`Message.from_frames` only after the frame's bytes were removed from the
buffer, and the `feed` loop's resynchronization then discards one more
byte from the start of the remaining buffer — the short frame yields no
message and one byte of the following data is lost. -/
theorem short_frame_error_byte_loss (s : MessageAssembler) (hdr : FrameHeader)
    (fp rest : List Nat)
    (hft : hdr.frame_type = .BULK) (hts : hdr.total_size = none)
    (hfs : hdr.frame_size = fp.length) (hshort : fp.length < 2)
    (hbuf : s.buffer = hdr.to_bytes ++ (fp ++ rest)) :
    MessageAssembler.tryExtractMessage s = (⟨rest, s.current_frames⟩, .errShort) ∧
    (∀ (fuel : Nat) (acc : List Message),
      MessageAssembler.feedLoop (fuel + 1) s acc =
        (if (rest.drop 1).isEmpty = true
         then ((⟨rest.drop 1, s.current_frames⟩ : MessageAssembler), acc)
         else MessageAssembler.feedLoop fuel ⟨rest.drop 1, s.current_frames⟩ acc)) := by
  have hff : ∀ (b : Bool), Message.from_frames hdr.channel_id [fp] b = none := by
    intro b
    rcases fp with _ | ⟨x, _ | ⟨y, t⟩⟩
    · rfl
    · rfl
    · simp only [List.length_cons] at hshort; omega
  have hlen : hdr.to_bytes.length = 4 := hdr.to_bytes_length_short hts
  have hp2 : FrameHeader.from_bytes s.buffer = some (hdr, hdr.to_bytes.length) := by
    rw [hbuf, hlen]
    exact FrameHeader.from_bytes_short hdr _ hts (by omega) (by rw [hft]; decide)
  have hstep :
      MessageAssembler.tryExtractMessage s = (⟨rest, s.current_frames⟩, .errShort) := by
    rw [MessageAssembler.tryExtractMessage_frame s hdr hdr.to_bytes fp rest hbuf hp2 hfs, hft,
      hff]
  refine ⟨hstep, fun fuel acc => ?_⟩
  rw [MessageAssembler.feedLoop_succ, hstep]

/-- C10 witness: a zero-size BULK frame, then a garbage byte 99, then a
valid BULK frame: the short frame yields nothing, byte 99 is discarded by
the resynchronization, and the following message is still recovered. -/
theorem short_frame_error_byte_loss_witness :
    MessageAssembler.tryExtractMessage ⟨[3, 3, 0, 0, 99, 1, 3, 0, 2, 0, 5], []⟩ =
      (⟨[99, 1, 3, 0, 2, 0, 5], []⟩, .errShort) ∧
    MessageAssembler.feed .init [3, 3, 0, 0, 99, 1, 3, 0, 2, 0, 5] =
      (⟨[], []⟩, [{ channel_id := 1, message_id := 5, payload := [], encrypted := false }]) := by
  constructor
  · have h := (short_frame_error_byte_loss ⟨[3, 3, 0, 0, 99, 1, 3, 0, 2, 0, 5], []⟩
      ⟨3, .BULK, .PLAIN, .SPECIFIC, 0, none⟩ [] [99, 1, 3, 0, 2, 0, 5]
      rfl rfl (by decide) (by decide) (by decide)).1
    simpa using h
  · decide

end Octave

namespace Octave

/-- C1: for every byte string of length ≥ 4, `from_bytes` parses an
extended (8-byte) header exactly when the frame-type bits of the flags
byte equal FIRST, at least 8 bytes are available, and the big-endian u32
at offset 4 is ≥ the big-endian u16 frame size at offset 2; in every
other case it consumes exactly 4 header bytes. -/
theorem from_bytes_extended_header_iff (data : List Nat) (h : 4 ≤ data.length) :
    ∃ hdr : FrameHeader,
      FrameHeader.from_bytes data =
        some (hdr,
          if data.getD 1 0 % 4 = FrameType.FIRST.toNat ∧ 8 ≤ data.length ∧
              decodeU16 (data.getD 2 0) (data.getD 3 0) ≤
                decodeU32 (data.getD 4 0) (data.getD 5 0) (data.getD 6 0) (data.getD 7 0)
          then 8 else 4) ∧
      (hdr.total_size.isSome ↔
        (data.getD 1 0 % 4 = FrameType.FIRST.toNat ∧ 8 ≤ data.length ∧
          decodeU16 (data.getD 2 0) (data.getD 3 0) ≤
            decodeU32 (data.getD 4 0) (data.getD 5 0) (data.getD 6 0) (data.getD 7 0))) := by
  rcases data with _ | ⟨a, data⟩; · simp at h
  rcases data with _ | ⟨b, data⟩; · simp at h
  rcases data with _ | ⟨c, data⟩; · simp at h
  rcases data with _ | ⟨d, rest⟩; · simp at h
  simp only [List.getD_cons_succ, List.getD_cons_zero]
  have hb : b % 4 = 0 ∨ b % 4 = 1 ∨ b % 4 = 2 ∨ b % 4 = 3 := by omega
  rcases hb with hb | hb | hb | hb <;>
    simp only [FrameHeader.from_bytes, hb, FrameType.fromNat, FrameType.toNat]
  case inr.inl =>
    rcases rest with _ | ⟨t0, rest⟩
    · simp [List.length]
    rcases rest with _ | ⟨t1, rest⟩
    · simp [List.length]
    rcases rest with _ | ⟨t2, rest⟩
    · simp [List.length]
    rcases rest with _ | ⟨t3, rest⟩
    · simp [List.length]
    simp only [List.getD_cons_succ, List.getD_cons_zero]
    by_cases hle : decodeU16 c d ≤ decodeU32 t0 t1 t2 t3
    · simp [hle, List.length_cons]
    · simp [hle]
  all_goals simp

/-- C1 witness: the header-form disambiguation example — a FIRST frame
with frame_size 100 whose next four bytes decode to 50 parses as the
short (4-byte) form with no `total_size` (those four bytes stay in the
payload region). -/
theorem from_bytes_extended_header_iff_witness :
    4 ≤ ([1, 1, 0, 100, 0, 0, 0, 50, 9, 9] : List Nat).length ∧
    ∃ hdr : FrameHeader,
      FrameHeader.from_bytes [1, 1, 0, 100, 0, 0, 0, 50, 9, 9] = some (hdr, 4) ∧
      hdr.total_size = none := by
  have hlen : 4 ≤ ([1, 1, 0, 100, 0, 0, 0, 50, 9, 9] : List Nat).length := by decide
  obtain ⟨hdr, h1, h2⟩ := from_bytes_extended_header_iff _ hlen
  rw [if_neg (by decide)] at h1
  exact ⟨hlen, hdr, h1,
    Option.not_isSome_iff_eq_none.mp (fun hs => absurd (h2.mp hs) (by decide))⟩

end Octave

namespace Octave

lemma Message.chunkRange_ne_nil (maxsz fuel : Nat) (d : List Nat)
    (hf : 0 < fuel) (hd : d ≠ []) :
    Message.chunkRange maxsz fuel d ≠ [] := by
  obtain ⟨k, rfl⟩ : ∃ k, fuel = k + 1 := ⟨fuel - 1, by omega⟩
  rw [Message.chunkRange_cons _ _ _ hd]
  simp

/-- Chunking and re-concatenating is the identity (with enough fuel and a
positive chunk size). -/
lemma Message.chunkRange_flatten (maxsz : Nat) (hm : 0 < maxsz) :
    ∀ (fuel : Nat) (d : List Nat), d.length ≤ fuel →
      (Message.chunkRange maxsz fuel d).flatten = d := by
  intro fuel
  induction fuel with
  | zero =>
    intro d hd
    have hnil : d = [] := List.length_eq_zero.mp (by omega)
    subst hnil
    rfl
  | succ k ih =>
    intro d hd
    rcases d with _ | ⟨a, t⟩
    · rfl
    · rw [Message.chunkRange_cons _ _ _ (by simp), List.flatten_cons,
        ih _ (by simp only [List.length_drop, List.length_cons] at hd ⊢; omega)]
      exact List.take_append_drop _ _

/-- For a message whose framed body exceeds `max` bytes,
`create_frame_data` opens with an extended FIRST header declaring
`frame_size = max` and `total_size` = whole body length, followed by the
first `max` body bytes; the remaining frames' wire bytes follow. -/
lemma Message.create_frame_data_multi (m : Message) (max : Nat)
    (hmax : 0 < max)
    (hlong : max < (encodeU16 m.message_id ++ m.payload).length) :
    ∃ restWire : List Nat,
      m.create_frame_data max =
        FrameHeader.to_bytes
          ⟨m.channel_id, .FIRST,
            (if m.encrypted then .ENCRYPTED else .PLAIN), .SPECIFIC,
            max, some (encodeU16 m.message_id ++ m.payload).length⟩
          ++ ((encodeU16 m.message_id ++ m.payload).take max ++ restWire) := by
  have hne : (encodeU16 m.message_id ++ m.payload) ≠ [] := by
    intro hc
    rw [hc] at hlong
    simp at hlong
  have hnle : ¬ ((encodeU16 m.message_id ++ m.payload).length ≤ max) := by omega
  have hframes : m.to_frames max =
      (encodeU16 m.message_id ++ m.payload).take max ::
        Message.chunkRange max ((encodeU16 m.message_id ++ m.payload).length - 1)
          ((encodeU16 m.message_id ++ m.payload).drop max) := by
    have hL : (encodeU16 m.message_id ++ m.payload).length =
        ((encodeU16 m.message_id ++ m.payload).length - 1) + 1 := by
      have : (encodeU16 m.message_id ++ m.payload).length ≠ 0 :=
        fun h => hne (List.length_eq_zero.mp h)
      omega
    simp only [Message.to_frames, if_neg hnle]
    rw [hL, Message.chunkRange_cons _ _ _ hne]
    simp
  rcases htl : Message.chunkRange max ((encodeU16 m.message_id ++ m.payload).length - 1)
      ((encodeU16 m.message_id ++ m.payload).drop max) with _ | ⟨fr1, frs⟩
  · exfalso
    refine Message.chunkRange_ne_nil max _ _ (by omega) ?_ htl
    intro hc
    have := congrArg List.length hc
    simp only [List.length_drop, List.length_nil] at this
    omega
  rw [htl] at hframes
  have hflatten : (m.to_frames max).flatten = encodeU16 m.message_id ++ m.payload := by
    simp only [Message.to_frames, if_neg hnle]
    exact Message.chunkRange_flatten max hmax _ _ (le_refl _)
  rw [hframes] at hflatten
  have hsum : (((encodeU16 m.message_id ++ m.payload).take max :: fr1 :: frs).map
      List.length).sum = (encodeU16 m.message_id ++ m.payload).length := by
    rw [← List.length_flatten, hflatten]
  have htake_len : ((encodeU16 m.message_id ++ m.payload).take max).length = max := by
    simp only [List.length_take]
    omega
  have hft0 : Message.frameTypeAt 0
      ((encodeU16 m.message_id ++ m.payload).take max :: fr1 :: frs).length = .FIRST := by
    simp [Message.frameTypeAt]
  apply Exists.intro
  simp only [Message.create_frame_data, hframes, List.enum_cons, List.map_cons,
    List.flatten_cons, List.append_assoc]
  congr 1
  congr 1
  have hcond : 1 < ((encodeU16 m.message_id ++ m.payload).take max :: fr1 :: frs).length ∧
      True := ⟨by simp only [List.length_cons]; omega, trivial⟩
  rw [if_pos hcond]
  simp only [List.map_cons] at hsum
  rw [hsum, htake_len, hft0]

end Octave

namespace Octave

/-- C3 (divergence theorem): whenever the framed body (2-byte id plus
payload) exceeds the 16384-byte default frame size — in particular for
payload lengths 16383 and 16384, which the round-trip claim covers — a
single `feed` call on the encoded bytes returns NO messages: the loop
consumes the FIRST frame, `_try_extract_message` returns `None` for it,
and `feed` breaks out with the remaining frames unprocessed. -/
theorem feed_multiframe_single_call_empty (ch mid : Nat) (payload : List Nat)
    (hch : ch < 256) (hmid : mid < 65536)
    (hlong : 16384 < payload.length + 2) (h32 : payload.length + 2 < 4294967296) :
    (MessageAssembler.feed .init
      ((⟨ch, mid, payload, false⟩ : Message).create_frame_data 16384)).2 = [] := by
  have hlen2 : (encodeU16 mid ++ payload).length = payload.length + 2 := by
    simp only [List.length_append, encodeU16, List.length_cons, List.length_nil]
    omega
  obtain ⟨restW, hwire⟩ := Message.create_frame_data_multi ⟨ch, mid, payload, false⟩ 16384
    (by norm_num) (by simp only; omega)
  simp only at hwire
  have hencP : (if false then EncryptionType.ENCRYPTED else EncryptionType.PLAIN) =
      EncryptionType.PLAIN := rfl
  rw [hencP] at hwire
  have h8 : (⟨ch, .FIRST, .PLAIN, .SPECIFIC, 16384,
      some (encodeU16 mid ++ payload).length⟩ : FrameHeader).to_bytes.length = 8 :=
    FrameHeader.to_bytes_length_ext _ _ rfl
  have hparse : FrameHeader.from_bytes
      ((⟨ch, mid, payload, false⟩ : Message).create_frame_data 16384) =
      some (⟨ch, .FIRST, .PLAIN, .SPECIFIC, 16384,
        some (encodeU16 mid ++ payload).length⟩, 8) := by
    rw [hwire]
    exact FrameHeader.from_bytes_ext _ _ _ rfl rfl (by norm_num) (by omega)
      (by dsimp only; omega)
  have hfs0 : (⟨ch, .FIRST, .PLAIN, .SPECIFIC, 16384,
      some (encodeU16 mid ++ payload).length⟩ : FrameHeader).frame_size =
      ((encodeU16 mid ++ payload).take 16384).length := by
    simp only [List.length_take]
    omega
  have hstep := MessageAssembler.tryExtractMessage_frame
    ⟨(⟨ch, mid, payload, false⟩ : Message).create_frame_data 16384, []⟩
    ⟨ch, .FIRST, .PLAIN, .SPECIFIC, 16384, some (encodeU16 mid ++ payload).length⟩
    (⟨ch, .FIRST, .PLAIN, .SPECIFIC, 16384,
      some (encodeU16 mid ++ payload).length⟩ : FrameHeader).to_bytes
    ((encodeU16 mid ++ payload).take 16384) restW
    (by exact hwire) (by rw [h8]; exact hparse) hfs0
  simp only [MessageAssembler.feed, MessageAssembler.init, List.nil_append]
  rw [MessageAssembler.feedLoop_break _ _ _ _ (by omega) hstep]

/-- C3 witness: the smallest failing payload length 16383 (message body
16385 bytes, split FIRST + LAST), channel 0, message id 0: one `feed`
call on the full encoding yields no messages, where the claim promises
the round-tripped message. -/
theorem feed_multiframe_single_call_empty_witness :
    (MessageAssembler.feed .init
      ((⟨0, 0, List.replicate 16383 0, false⟩ : Message).create_frame_data 16384)).2 = [] :=
  feed_multiframe_single_call_empty 0 0 (List.replicate 16383 0)
    (by norm_num) (by norm_num)
    (by rw [List.length_replicate]; norm_num)
    (by rw [List.length_replicate]; norm_num)

/-- C4 (divergence theorem): a two-frame stream (FIRST then LAST on
channel 0, six body bytes) produced by `create_frame_data` with a 3-byte
frame limit: feeding the whole stream in one call yields no messages,
while feeding it split at the frame boundary yields the message — the
concatenated per-chunk results differ from the single-call result. -/
theorem feed_split_vs_single_call :
    (⟨0, 1, [9, 8, 7, 6], false⟩ : Message).create_frame_data 3 =
      [0, 1, 0, 3, 0, 0, 0, 6, 0, 1, 9] ++ [0, 2, 0, 3, 8, 7, 6] ∧
    (MessageAssembler.feed .init
      ([0, 1, 0, 3, 0, 0, 0, 6, 0, 1, 9] ++ [0, 2, 0, 3, 8, 7, 6])).2 = [] ∧
    ((MessageAssembler.feed .init [0, 1, 0, 3, 0, 0, 0, 6, 0, 1, 9]).2 ++
      (MessageAssembler.feed
        (MessageAssembler.feed .init [0, 1, 0, 3, 0, 0, 0, 6, 0, 1, 9]).1
        [0, 2, 0, 3, 8, 7, 6]).2) =
      [{ channel_id := 0, message_id := 1, payload := [9, 8, 7, 6], encrypted := false }] := by
  refine ⟨by decide, by decide, by decide⟩

end Octave

namespace Octave

/-- A message whose payload is exactly three times the 16384-byte frame
limit splits into exactly four chunks: three full 16384-byte chunks and a
final 2-byte chunk (the body is payload + the 2-byte message id). -/
lemma Message.to_frames_threefold (m : Message) (hlen : m.payload.length = 3 * 16384) :
    m.to_frames 16384 =
      [(encodeU16 m.message_id ++ m.payload).take 16384,
       ((encodeU16 m.message_id ++ m.payload).drop 16384).take 16384,
       ((encodeU16 m.message_id ++ m.payload).drop 32768).take 16384,
       (encodeU16 m.message_id ++ m.payload).drop 49152] := by
  have hL : (encodeU16 m.message_id ++ m.payload).length = 49154 := by
    simp only [List.length_append, encodeU16, List.length_cons, List.length_nil]
    omega
  have hne0 : encodeU16 m.message_id ++ m.payload ≠ [] := by
    intro hc
    rw [hc] at hL
    simp at hL
  have hne1 : (encodeU16 m.message_id ++ m.payload).drop 16384 ≠ [] := by
    intro hc
    have := congrArg List.length hc
    simp only [List.length_drop, hL, List.length_nil] at this
    omega
  have hne2 : ((encodeU16 m.message_id ++ m.payload).drop 16384).drop 16384 ≠ [] := by
    intro hc
    have := congrArg List.length hc
    simp only [List.length_drop, hL, List.length_nil] at this
    omega
  have hne3 : (((encodeU16 m.message_id ++ m.payload).drop 16384).drop 16384).drop 16384
      ≠ [] := by
    intro hc
    have := congrArg List.length hc
    simp only [List.length_drop, hL, List.length_nil] at this
    omega
  have hnle : ¬ ((encodeU16 m.message_id ++ m.payload).length ≤ 16384) := by omega
  simp only [Message.to_frames, if_neg hnle]
  rw [hL]
  rw [show (49154 : Nat) = 49153 + 1 from rfl, Message.chunkRange_cons _ _ _ hne0]
  rw [show (49153 : Nat) = 49152 + 1 from rfl, Message.chunkRange_cons _ _ _ hne1]
  rw [show (49152 : Nat) = 49151 + 1 from rfl, Message.chunkRange_cons _ _ _ hne2]
  rw [show (49151 : Nat) = 49150 + 1 from rfl, Message.chunkRange_cons _ _ _ hne3]
  have hdd2 : ((encodeU16 m.message_id ++ m.payload).drop 16384).drop 16384 =
      (encodeU16 m.message_id ++ m.payload).drop 32768 := by
    rw [List.drop_drop]
  rw [hdd2]
  have hdd3 : ((encodeU16 m.message_id ++ m.payload).drop 32768).drop 16384 =
      (encodeU16 m.message_id ++ m.payload).drop 49152 := by
    rw [List.drop_drop]
  rw [hdd3]
  have hnil4 : ((encodeU16 m.message_id ++ m.payload).drop 49152).drop 16384 = [] := by
    apply List.length_eq_zero.mp
    simp only [List.length_drop, hL]
  rw [hnil4, Message.chunkRange_nil]
  have htk : ((encodeU16 m.message_id ++ m.payload).drop 49152).take 16384 =
      (encodeU16 m.message_id ++ m.payload).drop 49152 := by
    apply List.take_of_length_le
    simp only [List.length_drop, hL]
    omega
  rw [htk]

end Octave

namespace Octave

/-- `create_frame_data` for a 3×16384-byte payload: four frames FIRST,
MIDDLE, MIDDLE, LAST; only the FIRST header is extended, carrying
`total_size` 49154 = payload length + 2; the LAST frame carries the
remaining 2 bytes. -/
lemma Message.create_frame_data_threefold (m : Message)
    (hlen : m.payload.length = 3 * 16384) :
    m.create_frame_data 16384 =
      (FrameHeader.to_bytes ⟨m.channel_id, .FIRST,
          (if m.encrypted then .ENCRYPTED else .PLAIN), .SPECIFIC, 16384, some 49154⟩ ++
        (encodeU16 m.message_id ++ m.payload).take 16384) ++
      ((FrameHeader.to_bytes ⟨m.channel_id, .MIDDLE,
          (if m.encrypted then .ENCRYPTED else .PLAIN), .SPECIFIC, 16384, none⟩ ++
        ((encodeU16 m.message_id ++ m.payload).drop 16384).take 16384) ++
      ((FrameHeader.to_bytes ⟨m.channel_id, .MIDDLE,
          (if m.encrypted then .ENCRYPTED else .PLAIN), .SPECIFIC, 16384, none⟩ ++
        ((encodeU16 m.message_id ++ m.payload).drop 32768).take 16384) ++
      ((FrameHeader.to_bytes ⟨m.channel_id, .LAST,
          (if m.encrypted then .ENCRYPTED else .PLAIN), .SPECIFIC, 2, none⟩ ++
        (encodeU16 m.message_id ++ m.payload).drop 49152) ++ []))) := by
  have hL : (encodeU16 m.message_id ++ m.payload).length = 49154 := by
    simp only [List.length_append, encodeU16, List.length_cons, List.length_nil]
    omega
  have hALen : ((encodeU16 m.message_id ++ m.payload).take 16384).length = 16384 := by
    rw [List.length_take, hL]; omega
  have hBLen : (((encodeU16 m.message_id ++ m.payload).drop 16384).take 16384).length =
      16384 := by
    rw [List.length_take, List.length_drop, hL]; omega
  have hCLen : (((encodeU16 m.message_id ++ m.payload).drop 32768).take 16384).length =
      16384 := by
    rw [List.length_take, List.length_drop, hL]; omega
  have hDLen : ((encodeU16 m.message_id ++ m.payload).drop 49152).length = 2 := by
    rw [List.length_drop, hL]
  have henum : ∀ (a b c d : List Nat),
      ([a, b, c, d] : List (List Nat)).enum = [(0, a), (1, b), (2, c), (3, d)] :=
    fun _ _ _ _ => rfl
  simp only [Message.create_frame_data, Message.to_frames_threefold m hlen, henum,
    List.map_cons, List.map_nil, List.flatten_cons, List.flatten_nil, List.length_cons,
    List.length_nil, List.sum_cons, List.sum_nil, hALen, hBLen, hCLen, hDLen]
  norm_num [Message.frameTypeAt]

end Octave

namespace Octave

set_option maxHeartbeats 2000000 in
/-- C5: a message whose payload is exactly 3×16384 bytes splits into
frames of types FIRST, MIDDLE, MIDDLE, LAST whose frame sizes
16384+16384+16384+2 sum to payload length + 2; only the FIRST frame
carries the extended header, with `total_size` 49154 equal to that sum;
and feeding each produced frame's wire bytes to the assembler (one `feed`
call per frame) yields in total exactly one message equal to the
original, leaving the assembler empty. -/
theorem multiframe_split_roundtrip (ch mid : Nat) (payload : List Nat) (e : Bool)
    (hmid : mid < 65536) (hlen : payload.length = 3 * 16384)
    (data A B C D w0 w1 w2 w3 : List Nat) (enc : EncryptionType)
    (r0 r1 r2 r3 : MessageAssembler × List Message)
    (hdata : data = encodeU16 mid ++ payload)
    (hA : A = data.take 16384) (hB : B = (data.drop 16384).take 16384)
    (hC : C = (data.drop 32768).take 16384) (hD : D = data.drop 49152)
    (henc : enc = if e then .ENCRYPTED else .PLAIN)
    (hw0 : w0 = FrameHeader.to_bytes ⟨ch, .FIRST, enc, .SPECIFIC, 16384, some 49154⟩ ++ A)
    (hw1 : w1 = FrameHeader.to_bytes ⟨ch, .MIDDLE, enc, .SPECIFIC, 16384, none⟩ ++ B)
    (hw2 : w2 = FrameHeader.to_bytes ⟨ch, .MIDDLE, enc, .SPECIFIC, 16384, none⟩ ++ C)
    (hw3 : w3 = FrameHeader.to_bytes ⟨ch, .LAST, enc, .SPECIFIC, 2, none⟩ ++ D)
    (hr0 : r0 = MessageAssembler.feed .init w0)
    (hr1 : r1 = MessageAssembler.feed r0.1 w1)
    (hr2 : r2 = MessageAssembler.feed r1.1 w2)
    (hr3 : r3 = MessageAssembler.feed r2.1 w3) :
    ((⟨ch, mid, payload, e⟩ : Message).to_frames 16384 = [A, B, C, D] ∧
      [A.length, B.length, C.length, D.length] = [16384, 16384, 16384, 2] ∧
      16384 + 16384 + 16384 + 2 = payload.length + 2) ∧
    (⟨ch, mid, payload, e⟩ : Message).create_frame_data 16384 =
      (w0 ++ (w1 ++ (w2 ++ (w3 ++ [])))) ∧
    r0.2 ++ r1.2 ++ r2.2 ++ r3.2 = [⟨ch, mid, payload, e⟩] ∧
    r3.1 = (⟨[], []⟩ : MessageAssembler) := by
  subst hr3 hr2 hr1 hr0
  subst hw0 hw1 hw2 hw3
  subst henc hA hB hC hD
  subst hdata
  have hL : (encodeU16 mid ++ payload).length = 49154 := by
    simp only [List.length_append, encodeU16, List.length_cons, List.length_nil]
    omega
  have hALen : ((encodeU16 mid ++ payload).take 16384).length = 16384 := by
    rw [List.length_take, hL]; omega
  have hBLen : (((encodeU16 mid ++ payload).drop 16384).take 16384).length = 16384 := by
    rw [List.length_take, List.length_drop, hL]; omega
  have hCLen : (((encodeU16 mid ++ payload).drop 32768).take 16384).length = 16384 := by
    rw [List.length_take, List.length_drop, hL]; omega
  have hDLen : ((encodeU16 mid ++ payload).drop 49152).length = 2 := by
    rw [List.length_drop, hL]
  -- the four feed calls
  have hs0 : MessageAssembler.tryExtractMessage
      ⟨FrameHeader.to_bytes ⟨ch, .FIRST, (if e then .ENCRYPTED else .PLAIN), .SPECIFIC,
          16384, some 49154⟩ ++ (encodeU16 mid ++ payload).take 16384, []⟩ =
      (⟨[], [(ch, [(encodeU16 mid ++ payload).take 16384])]⟩, .noMsg) := by
    rw [MessageAssembler.tryExtractMessage_frame _
      ⟨ch, .FIRST, (if e then .ENCRYPTED else .PLAIN), .SPECIFIC, 16384, some 49154⟩
      (FrameHeader.to_bytes ⟨ch, .FIRST, (if e then .ENCRYPTED else .PLAIN), .SPECIFIC,
        16384, some 49154⟩)
      ((encodeU16 mid ++ payload).take 16384) []
      (by simp)
      (by rw [FrameHeader.to_bytes_length_ext _ 49154 rfl]
          exact FrameHeader.from_bytes_ext _ _ _ rfl rfl (by norm_num) (by norm_num)
            (by dsimp only; norm_num))
      (by dsimp only; exact hALen.symm)]
    rfl
  have hr0eq : MessageAssembler.feed .init
      (FrameHeader.to_bytes ⟨ch, .FIRST, (if e then .ENCRYPTED else .PLAIN), .SPECIFIC,
        16384, some 49154⟩ ++ (encodeU16 mid ++ payload).take 16384) =
      (⟨[], [(ch, [(encodeU16 mid ++ payload).take 16384])]⟩, []) := by
    simp only [MessageAssembler.feed, MessageAssembler.init, List.nil_append]
    exact MessageAssembler.feedLoop_break _ _ _ _ (by omega) hs0
  have hs1 : MessageAssembler.tryExtractMessage
      ⟨FrameHeader.to_bytes ⟨ch, .MIDDLE, (if e then .ENCRYPTED else .PLAIN), .SPECIFIC,
          16384, none⟩ ++ ((encodeU16 mid ++ payload).drop 16384).take 16384,
        [(ch, [(encodeU16 mid ++ payload).take 16384])]⟩ =
      (⟨[], [(ch, [(encodeU16 mid ++ payload).take 16384,
        ((encodeU16 mid ++ payload).drop 16384).take 16384])]⟩, .noMsg) := by
    rw [MessageAssembler.tryExtractMessage_frame _
      ⟨ch, .MIDDLE, (if e then .ENCRYPTED else .PLAIN), .SPECIFIC, 16384, none⟩
      (FrameHeader.to_bytes ⟨ch, .MIDDLE, (if e then .ENCRYPTED else .PLAIN), .SPECIFIC,
        16384, none⟩)
      (((encodeU16 mid ++ payload).drop 16384).take 16384) []
      (by simp)
      (by rw [FrameHeader.to_bytes_length_short _ rfl]
          exact FrameHeader.from_bytes_short _ _ rfl (by dsimp only; norm_num)
            (by dsimp only; decide))
      (by dsimp only; exact hBLen.symm)]
    simp [dictGet, dictSet]
  have hr1eq : MessageAssembler.feed
      ⟨[], [(ch, [(encodeU16 mid ++ payload).take 16384])]⟩
      (FrameHeader.to_bytes ⟨ch, .MIDDLE, (if e then .ENCRYPTED else .PLAIN), .SPECIFIC,
        16384, none⟩ ++ ((encodeU16 mid ++ payload).drop 16384).take 16384) =
      (⟨[], [(ch, [(encodeU16 mid ++ payload).take 16384,
        ((encodeU16 mid ++ payload).drop 16384).take 16384])]⟩, []) := by
    simp only [MessageAssembler.feed, List.nil_append]
    exact MessageAssembler.feedLoop_break _ _ _ _ (by omega) hs1
  have hs2 : MessageAssembler.tryExtractMessage
      ⟨FrameHeader.to_bytes ⟨ch, .MIDDLE, (if e then .ENCRYPTED else .PLAIN), .SPECIFIC,
          16384, none⟩ ++ ((encodeU16 mid ++ payload).drop 32768).take 16384,
        [(ch, [(encodeU16 mid ++ payload).take 16384,
          ((encodeU16 mid ++ payload).drop 16384).take 16384])]⟩ =
      (⟨[], [(ch, [(encodeU16 mid ++ payload).take 16384,
        ((encodeU16 mid ++ payload).drop 16384).take 16384,
        ((encodeU16 mid ++ payload).drop 32768).take 16384])]⟩, .noMsg) := by
    rw [MessageAssembler.tryExtractMessage_frame _
      ⟨ch, .MIDDLE, (if e then .ENCRYPTED else .PLAIN), .SPECIFIC, 16384, none⟩
      (FrameHeader.to_bytes ⟨ch, .MIDDLE, (if e then .ENCRYPTED else .PLAIN), .SPECIFIC,
        16384, none⟩)
      (((encodeU16 mid ++ payload).drop 32768).take 16384) []
      (by simp)
      (by rw [FrameHeader.to_bytes_length_short _ rfl]
          exact FrameHeader.from_bytes_short _ _ rfl (by dsimp only; norm_num)
            (by dsimp only; decide))
      (by dsimp only; exact hCLen.symm)]
    simp [dictGet, dictSet]
  have hr2eq : MessageAssembler.feed
      ⟨[], [(ch, [(encodeU16 mid ++ payload).take 16384,
        ((encodeU16 mid ++ payload).drop 16384).take 16384])]⟩
      (FrameHeader.to_bytes ⟨ch, .MIDDLE, (if e then .ENCRYPTED else .PLAIN), .SPECIFIC,
        16384, none⟩ ++ ((encodeU16 mid ++ payload).drop 32768).take 16384) =
      (⟨[], [(ch, [(encodeU16 mid ++ payload).take 16384,
        ((encodeU16 mid ++ payload).drop 16384).take 16384,
        ((encodeU16 mid ++ payload).drop 32768).take 16384])]⟩, []) := by
    simp only [MessageAssembler.feed, List.nil_append]
    exact MessageAssembler.feedLoop_break _ _ _ _ (by omega) hs2
  -- recomposition of the body and the final LAST step
  have h1 : (encodeU16 mid ++ payload).take 16384 ++ (encodeU16 mid ++ payload).drop 16384 =
      encodeU16 mid ++ payload := List.take_append_drop _ _
  have h2 : ((encodeU16 mid ++ payload).drop 16384).take 16384 ++
      (encodeU16 mid ++ payload).drop 32768 = (encodeU16 mid ++ payload).drop 16384 := by
    rw [show (32768 : Nat) = 16384 + 16384 from rfl, ← List.drop_drop]
    exact List.take_append_drop _ _
  have h3 : ((encodeU16 mid ++ payload).drop 32768).take 16384 ++
      (encodeU16 mid ++ payload).drop 49152 = (encodeU16 mid ++ payload).drop 32768 := by
    rw [show (49152 : Nat) = 32768 + 16384 from rfl, ← List.drop_drop]
    exact List.take_append_drop _ _
  have hjoin : (encodeU16 mid ++ payload).take 16384 ++
      (((encodeU16 mid ++ payload).drop 16384).take 16384 ++
        (((encodeU16 mid ++ payload).drop 32768).take 16384 ++
          ((encodeU16 mid ++ payload).drop 49152 ++ []))) = encodeU16 mid ++ payload := by
    rw [List.append_nil, h3, h2, h1]
  have hff : Message.from_frames ch
      [(encodeU16 mid ++ payload).take 16384,
        ((encodeU16 mid ++ payload).drop 16384).take 16384,
        ((encodeU16 mid ++ payload).drop 32768).take 16384,
        (encodeU16 mid ++ payload).drop 49152] e =
      some ⟨ch, mid, payload, e⟩ := by
    have hfl : ([(encodeU16 mid ++ payload).take 16384,
        ((encodeU16 mid ++ payload).drop 16384).take 16384,
        ((encodeU16 mid ++ payload).drop 32768).take 16384,
        (encodeU16 mid ++ payload).drop 49152] : List (List Nat)).flatten =
        (mid / 256 % 256) :: (mid % 256) :: payload := by
      simp only [List.flatten_cons, List.flatten_nil]
      rw [hjoin]
      simp [encodeU16]
    simp only [Message.from_frames, hfl]
    rw [show decodeU16 (mid / 256 % 256) (mid % 256) = mid from decodeU16_encodeU16 mid hmid]
  have hs3 : MessageAssembler.tryExtractMessage
      ⟨FrameHeader.to_bytes ⟨ch, .LAST, (if e then .ENCRYPTED else .PLAIN), .SPECIFIC,
          2, none⟩ ++ (encodeU16 mid ++ payload).drop 49152,
        [(ch, [(encodeU16 mid ++ payload).take 16384,
          ((encodeU16 mid ++ payload).drop 16384).take 16384,
          ((encodeU16 mid ++ payload).drop 32768).take 16384])]⟩ =
      (⟨[], []⟩, .oneMsg ⟨ch, mid, payload, e⟩) := by
    rw [MessageAssembler.tryExtractMessage_frame _
      ⟨ch, .LAST, (if e then .ENCRYPTED else .PLAIN), .SPECIFIC, 2, none⟩
      (FrameHeader.to_bytes ⟨ch, .LAST, (if e then .ENCRYPTED else .PLAIN), .SPECIFIC,
        2, none⟩)
      ((encodeU16 mid ++ payload).drop 49152) []
      (by simp)
      (by rw [FrameHeader.to_bytes_length_short _ rfl]
          exact FrameHeader.from_bytes_short _ _ rfl (by dsimp only; norm_num)
            (by dsimp only; decide))
      (by dsimp only; exact hDLen.symm)]
    simp [dictGet, dictPop, hff]
  have hr3eq : MessageAssembler.feed
      ⟨[], [(ch, [(encodeU16 mid ++ payload).take 16384,
        ((encodeU16 mid ++ payload).drop 16384).take 16384,
        ((encodeU16 mid ++ payload).drop 32768).take 16384])]⟩
      (FrameHeader.to_bytes ⟨ch, .LAST, (if e then .ENCRYPTED else .PLAIN), .SPECIFIC,
        2, none⟩ ++ (encodeU16 mid ++ payload).drop 49152) =
      (⟨[], []⟩, [⟨ch, mid, payload, e⟩]) := by
    simp only [MessageAssembler.feed, List.nil_append]
    refine MessageAssembler.feedLoop_emit_end _ _ _ _ _ ?_ hs3 rfl
    rw [List.length_append, FrameHeader.to_bytes_length_short _ rfl]
    omega
  refine ⟨⟨Message.to_frames_threefold _ hlen, ?_, ?_⟩, ?_, ?_, ?_⟩
  · rw [hALen, hBLen, hCLen, hDLen]
  · rw [hlen]
  · exact Message.create_frame_data_threefold _ hlen
  · simp [hr0eq, hr1eq, hr2eq, hr3eq]
  · simp [hr0eq, hr1eq, hr2eq, hr3eq]

end Octave

namespace Octave

set_option maxHeartbeats 1000000 in
set_option maxRecDepth 8192 in
/-- C5 witness: the concrete instance — channel 3, message id 258, payload
of 49152 zero bytes. -/
theorem multiframe_split_roundtrip_witness :
    ((⟨3, 258, List.replicate 49152 0, false⟩ : Message).to_frames 16384 = [(encodeU16 258 ++ List.replicate 49152 0).take 16384, ((encodeU16 258 ++ List.replicate 49152 0).drop 16384).take 16384, ((encodeU16 258 ++ List.replicate 49152 0).drop 32768).take 16384, (encodeU16 258 ++ List.replicate 49152 0).drop 49152] ∧
      [((encodeU16 258 ++ List.replicate 49152 0).take 16384).length, (((encodeU16 258 ++ List.replicate 49152 0).drop 16384).take 16384).length, (((encodeU16 258 ++ List.replicate 49152 0).drop 32768).take 16384).length, ((encodeU16 258 ++ List.replicate 49152 0).drop 49152).length] = [16384, 16384, 16384, 2] ∧
      16384 + 16384 + 16384 + 2 = (List.replicate 49152 (0:Nat)).length + 2) ∧
    (⟨3, 258, List.replicate 49152 0, false⟩ : Message).create_frame_data 16384 = ((FrameHeader.to_bytes ⟨3, .FIRST, (if false then EncryptionType.ENCRYPTED else EncryptionType.PLAIN), .SPECIFIC, 16384, some 49154⟩ ++ (encodeU16 258 ++ List.replicate 49152 0).take 16384) ++ ((FrameHeader.to_bytes ⟨3, .MIDDLE, (if false then EncryptionType.ENCRYPTED else EncryptionType.PLAIN), .SPECIFIC, 16384, none⟩ ++ ((encodeU16 258 ++ List.replicate 49152 0).drop 16384).take 16384) ++ ((FrameHeader.to_bytes ⟨3, .MIDDLE, (if false then EncryptionType.ENCRYPTED else EncryptionType.PLAIN), .SPECIFIC, 16384, none⟩ ++ ((encodeU16 258 ++ List.replicate 49152 0).drop 32768).take 16384) ++ ((FrameHeader.to_bytes ⟨3, .LAST, (if false then EncryptionType.ENCRYPTED else EncryptionType.PLAIN), .SPECIFIC, 2, none⟩ ++ (encodeU16 258 ++ List.replicate 49152 0).drop 49152) ++ [])))) ∧
    (MessageAssembler.feed .init (FrameHeader.to_bytes ⟨3, .FIRST, (if false then EncryptionType.ENCRYPTED else EncryptionType.PLAIN), .SPECIFIC, 16384, some 49154⟩ ++ (encodeU16 258 ++ List.replicate 49152 0).take 16384)).2 ++ (MessageAssembler.feed (MessageAssembler.feed .init (FrameHeader.to_bytes ⟨3, .FIRST, (if false then EncryptionType.ENCRYPTED else EncryptionType.PLAIN), .SPECIFIC, 16384, some 49154⟩ ++ (encodeU16 258 ++ List.replicate 49152 0).take 16384)).1 (FrameHeader.to_bytes ⟨3, .MIDDLE, (if false then EncryptionType.ENCRYPTED else EncryptionType.PLAIN), .SPECIFIC, 16384, none⟩ ++ ((encodeU16 258 ++ List.replicate 49152 0).drop 16384).take 16384)).2 ++ (MessageAssembler.feed (MessageAssembler.feed (MessageAssembler.feed .init (FrameHeader.to_bytes ⟨3, .FIRST, (if false then EncryptionType.ENCRYPTED else EncryptionType.PLAIN), .SPECIFIC, 16384, some 49154⟩ ++ (encodeU16 258 ++ List.replicate 49152 0).take 16384)).1 (FrameHeader.to_bytes ⟨3, .MIDDLE, (if false then EncryptionType.ENCRYPTED else EncryptionType.PLAIN), .SPECIFIC, 16384, none⟩ ++ ((encodeU16 258 ++ List.replicate 49152 0).drop 16384).take 16384)).1 (FrameHeader.to_bytes ⟨3, .MIDDLE, (if false then EncryptionType.ENCRYPTED else EncryptionType.PLAIN), .SPECIFIC, 16384, none⟩ ++ ((encodeU16 258 ++ List.replicate 49152 0).drop 32768).take 16384)).2 ++ (MessageAssembler.feed (MessageAssembler.feed (MessageAssembler.feed (MessageAssembler.feed .init (FrameHeader.to_bytes ⟨3, .FIRST, (if false then EncryptionType.ENCRYPTED else EncryptionType.PLAIN), .SPECIFIC, 16384, some 49154⟩ ++ (encodeU16 258 ++ List.replicate 49152 0).take 16384)).1 (FrameHeader.to_bytes ⟨3, .MIDDLE, (if false then EncryptionType.ENCRYPTED else EncryptionType.PLAIN), .SPECIFIC, 16384, none⟩ ++ ((encodeU16 258 ++ List.replicate 49152 0).drop 16384).take 16384)).1 (FrameHeader.to_bytes ⟨3, .MIDDLE, (if false then EncryptionType.ENCRYPTED else EncryptionType.PLAIN), .SPECIFIC, 16384, none⟩ ++ ((encodeU16 258 ++ List.replicate 49152 0).drop 32768).take 16384)).1 (FrameHeader.to_bytes ⟨3, .LAST, (if false then EncryptionType.ENCRYPTED else EncryptionType.PLAIN), .SPECIFIC, 2, none⟩ ++ (encodeU16 258 ++ List.replicate 49152 0).drop 49152)).2 = [(⟨3, 258, List.replicate 49152 0, false⟩ : Message)] ∧
    (MessageAssembler.feed (MessageAssembler.feed (MessageAssembler.feed (MessageAssembler.feed .init (FrameHeader.to_bytes ⟨3, .FIRST, (if false then EncryptionType.ENCRYPTED else EncryptionType.PLAIN), .SPECIFIC, 16384, some 49154⟩ ++ (encodeU16 258 ++ List.replicate 49152 0).take 16384)).1 (FrameHeader.to_bytes ⟨3, .MIDDLE, (if false then EncryptionType.ENCRYPTED else EncryptionType.PLAIN), .SPECIFIC, 16384, none⟩ ++ ((encodeU16 258 ++ List.replicate 49152 0).drop 16384).take 16384)).1 (FrameHeader.to_bytes ⟨3, .MIDDLE, (if false then EncryptionType.ENCRYPTED else EncryptionType.PLAIN), .SPECIFIC, 16384, none⟩ ++ ((encodeU16 258 ++ List.replicate 49152 0).drop 32768).take 16384)).1 (FrameHeader.to_bytes ⟨3, .LAST, (if false then EncryptionType.ENCRYPTED else EncryptionType.PLAIN), .SPECIFIC, 2, none⟩ ++ (encodeU16 258 ++ List.replicate 49152 0).drop 49152)).1 = (⟨[], []⟩ : MessageAssembler) := by
  exact multiframe_split_roundtrip 3 258 (List.replicate 49152 0) false
    (by norm_num) (by rw [List.length_replicate]) _ _ _ _ _ _ _ _ _ _ _ _ _ _
    rfl rfl rfl rfl rfl rfl rfl rfl rfl rfl rfl rfl rfl rfl

end Octave

-- sanity examples (concrete evaluation of the codec)
example :
    Octave.FrameHeader.from_bytes [1, 1, 0, 100, 0, 0, 0, 50] =
      some (⟨1, .FIRST, .PLAIN, .SPECIFIC, 100, none⟩, 4) := by decide

example :
    (Octave.Message.create_frame_data ⟨1, 5, [], false⟩ 16384) =
      [1, 3, 0, 2, 0, 5] := by decide

example :
    Octave.MessageAssembler.feed .init [1, 3, 0, 2, 0, 5] =
      (⟨[], []⟩, [⟨1, 5, [], false⟩]) := by decide

example :
    Octave.MessageAssembler.feed .init (255 :: [1, 3, 0, 2, 0, 5]) =
      (⟨255 :: [1, 3, 0, 2, 0, 5], []⟩, []) := by decide
